import Mathlib

/-!
# Typed command-line option bridge (`src/LibLLVM/CommandLineOoptionBindings.cpp`)

A shallow embedding of the C entry points that register named options of a
primitive type in the Host's option registry and read them back by name.

Conventions of the embedding:

* a `char const*` argument is the list of bytes stored from the pointer on; the
  string it denotes is the run of bytes before the first nul (`cstr`);
* `LLVMBool` (a C `int`) is an `Int`; `false` is `0` and `true` is `1`;
* an `unsigned` is a `Nat`; the code only copies such values, it never does
  arithmetic on them;
* an output parameter `T* value` is a value passed in (the prior content of the
  location) and returned next to the C return value (its content afterwards);
* the Host registry is an explicit state: registrars return the new registry,
  accessors only read it.
-/

namespace LibLLVM

/-- The memory a `char const*` points to, byte by byte. -/
abbrev CharPtr := List Nat

/-- The string denoted by a `char const*`: the bytes before the first nul (what
the implicit conversions to `StringRef` and `std::string` read). -/
def cstr (p : CharPtr) : List Nat :=
  p.takeWhile (fun b => b != 0)

/-- The buffer `std::string::c_str( )` points to: the content followed by a nul. -/
def c_str (s : List Nat) : CharPtr :=
  s ++ [0]

/-- Modelled from the spec: the Host's registered option object (`cl::Option`),
which is missing from the sources. One constructor per runtime type the bridge
discriminates with `typeid`, each carrying the value cell of that type, and
`other` for every other Host option class. -/
inductive ClOption where
  /-- `cl::opt<bool>` -/
  | optBool (value : Bool)
  /-- `cl::opt<unsigned>` -/
  | optUnsigned (value : Nat)
  /-- `cl::opt<std::string>` -/
  | optString (value : List Nat)
  /-- any other option class of the Host, identified by its runtime type -/
  | other (typeId : Nat)
  deriving DecidableEq, Repr

/-- Modelled from the spec: an entry of the Host's option registry, the triple
(name, value cell, descriptive text); `first` and `second` are the key and the
mapped option of the map entry. -/
structure Entry where
  first : List Nat
  second : ClOption
  description : CharPtr
  deriving DecidableEq, Repr

/-- Modelled from the spec: the Host's map of registered options
(`cl::getRegisteredOptions( )`), keyed by name. -/
abbrev OptionsMap := List Entry

/-- Modelled from the spec: lookup of a name in the Host's map of registered
options, by exact byte equality; `none` stands for `optionsMap.end( )`. -/
def OptionsMap.find : OptionsMap → List Nat → Option ClOption
  | [], _ => none
  | e :: rest, key => if e.first = key then some e.second else OptionsMap.find rest key

/-- Modelled from the spec: the Host's `OptionRegistry::registerOption`, which is
missing from the sources. It creates the option object and inserts it in the
registry under the name; a name that is already registered is rejected by the
Host (the process stops), which is `none`. -/
def OptionRegistry.registerOption (registry : OptionsMap) (name description : CharPtr)
    (option : ClOption) : Option OptionsMap :=
  match OptionsMap.find registry (cstr name) with
  | some _ => none
  | none => some ({ first := cstr name, second := option, description := description } :: registry)

/-- The initial value handed to `GenericOptionHolder<T>::RegisterOption`, for the
three instantiations of `T` the file uses. -/
inductive HolderValue where
  /-- `T = bool` -/
  | ofBool (initialValue : Bool)
  /-- `T = unsigned` -/
  | ofUnsigned (initialValue : Nat)
  /-- `T = std::string` -/
  | ofString (initialValue : List Nat)
  deriving DecidableEq, Repr

/-- The option object `cl::opt<T>` that `registerOption< T, ... >` creates for an
initial value of type `T`. -/
def HolderValue.toOption : HolderValue → ClOption
  | .ofBool b => .optBool b
  | .ofUnsigned n => .optUnsigned n
  | .ofString s => .optString s

/-- Modelled from the spec: `OptionRegistry::instance( )`, which is missing from
the sources: the Host's process-wide option registry, here the options
registered with the Host. -/
def OptionRegistry.instance (host : OptionsMap) : OptionsMap :=
  host

/-- Modelled from the spec: the end of the lifetime of a registry object that a
caller holds by value; the Host's destructor is missing from the sources. The
spec gives value cells and registry entries process lifetime, never destroyed,
freed or relocated (invariants I1 and I2 of its data model, and its sections
4.1, 5 and 9), so the options registered with the Host are, after the
destruction of the object `registry`, what they were before it. -/
def OptionRegistry.destroy (_registry host : OptionsMap) : OptionsMap :=
  host

/-- `GenericOptionHolder<T>::RegisterOption( name, description, initialValue )`,
on the options registered with the Host. The local `registry` is a copy of the
Host's registry object, taken by value before the registration and destroyed
when the function returns. -/
def GenericOptionHolder.RegisterOption (host : OptionsMap) (name description : CharPtr)
    (initialValue : HolderValue) : Option OptionsMap :=
  -- auto registry = OptionRegistry::instance( );
  let registry := OptionRegistry.instance host
  -- registry.registerOption< T, ... >( name, description, initialValue );
  match OptionRegistry.registerOption host name description initialValue.toOption with
  | none => none
  -- closing brace: the copy `registry` goes out of scope
  | some host' => some (OptionRegistry.destroy registry host')

/-- `LLVMCreateCustomBooleanOption`: the `LLVMBool` is cast to `bool`. -/
def LLVMCreateCustomBooleanOption (registry : OptionsMap) (name description : CharPtr)
    (initialValue : Int) : Option OptionsMap :=
  GenericOptionHolder.RegisterOption registry name description (.ofBool (initialValue != 0))

/-- `LLVMCreateCustomUnsignedOption`. -/
def LLVMCreateCustomUnsignedOption (registry : OptionsMap) (name description : CharPtr)
    (initialValue : Nat) : Option OptionsMap :=
  GenericOptionHolder.RegisterOption registry name description (.ofUnsigned initialValue)

/-- `LLVMCreateCustomStringOption`: the `char const*` is converted to `std::string`. -/
def LLVMCreateCustomStringOption (registry : OptionsMap) (name description : CharPtr)
    (initialValue : CharPtr) : Option OptionsMap :=
  GenericOptionHolder.RegisterOption registry name description (.ofString (cstr initialValue))

/-- `LLVMCreateCustomDoubleOption`: takes an `unsigned` and registers through
`GenericOptionHolder<unsigned>`. -/
def LLVMCreateCustomDoubleOption (registry : OptionsMap) (name description : CharPtr)
    (initialValue : Nat) : Option OptionsMap :=
  GenericOptionHolder.RegisterOption registry name description (.ofUnsigned initialValue)

/-- `LLVMGetBooleanOption( name, value )`: the result is the returned `LLVMBool`
and the content of `*value` afterwards. -/
def LLVMGetBooleanOption (optionsMap : OptionsMap) (name : CharPtr) (value : Int) : Int × Int :=
  match OptionsMap.find optionsMap (cstr name) with
  -- pEntry == optionsMap.end( ): return false
  | none => (0, value)
  | some pOpt =>
    match pOpt with
    -- typeid is cl::opt<bool>: *value = getValue( ); return false
    | .optBool b => (0, if b then 1 else 0)
    -- typeid( *pOpt ) != typeid( cl::opt<bool> ): return false
    | _ => (0, value)

/-- `LLVMGetUnsignedOption( name, value )`: the result is the returned `LLVMBool`
and the content of `*value` afterwards. -/
def LLVMGetUnsignedOption (optionsMap : OptionsMap) (name : CharPtr) (value : Nat) : Int × Nat :=
  match OptionsMap.find optionsMap (cstr name) with
  -- pEntry == optionsMap.end( ): return false
  | none => (0, value)
  | some pOpt =>
    match pOpt with
    -- typeid is cl::opt<unsigned>: *value = getValue( ); return true
    | .optUnsigned n => (1, n)
    -- typeid( *( pEntry->second ) ) != typeid( cl::opt<unsigned> ): return false
    | _ => (0, value)

/-- `LLVMGetStringOption( name )`: `none` is `nullptr`, `some p` is a pointer to
the bytes `p`. -/
def LLVMGetStringOption (optionsMap : OptionsMap) (name : CharPtr) : Option CharPtr :=
  match OptionsMap.find optionsMap (cstr name) with
  -- opt == optionsMap.end( ): return nullptr
  | none => none
  | some opt =>
    match opt with
    -- typeid is cl::opt<std::string>: return c_str( )
    | .optString s => some (c_str s)
    -- typeid( *( opt->second ) ) != typeid( cl::opt<std::string> ): return nullptr
    | _ => none

/-- Modelled from the spec: the Host's command-line parser storing a new value
in the cell of the option registered under a name. The cell keeps its type: the
entry is rewritten only when the new option object has the runtime type of the
registered one. -/
def OptionsMap.store : OptionsMap → List Nat → ClOption → OptionsMap
  | [], _, _ => []
  | e :: rest, key, w =>
    if e.first = key then
      match e.second, w with
      | .optBool _, .optBool b => { e with second := .optBool b } :: rest
      | .optUnsigned _, .optUnsigned n => { e with second := .optUnsigned n } :: rest
      | .optString _, .optString s => { e with second := .optString s } :: rest
      | _, _ => e :: rest
    else e :: OptionsMap.store rest key w

/-- The bytes of an ASCII text followed by the terminating nul, as a `char const*`. -/
def lit (s : String) : CharPtr :=
  s.toList.map Char.toNat ++ [0]

/-! ## Lemmas on the registry -/

theorem find_cons_self (key : List Nat) (option : ClOption) (description : CharPtr)
    (registry : OptionsMap) :
    OptionsMap.find ({ first := key, second := option, description := description } :: registry)
      key = some option := by
  simp [OptionsMap.find]

theorem registerOption_fresh (registry : OptionsMap) (name description : CharPtr)
    (option : ClOption) (h : OptionsMap.find registry (cstr name) = none) :
    OptionRegistry.registerOption registry name description option =
      some ({ first := cstr name, second := option, description := description } :: registry) := by
  simp [OptionRegistry.registerOption, h]

theorem find_registerOption_self (registry : OptionsMap) (name description : CharPtr)
    (option : ClOption) (h : OptionsMap.find registry (cstr name) = none) :
    ∃ registry', OptionRegistry.registerOption registry name description option = some registry' ∧
      OptionsMap.find registry' (cstr name) = some option :=
  ⟨_, registerOption_fresh registry name description option h, find_cons_self _ _ _ _⟩

theorem RegisterOption_eq_registerOption (host : OptionsMap) (name description : CharPtr)
    (initialValue : HolderValue) :
    GenericOptionHolder.RegisterOption host name description initialValue =
      OptionRegistry.registerOption host name description initialValue.toOption := by
  unfold GenericOptionHolder.RegisterOption
  cases OptionRegistry.registerOption host name description initialValue.toOption with
  | none => rfl
  | some r => rfl

theorem find_RegisterOption_self (host : OptionsMap) (name description : CharPtr)
    (initialValue : HolderValue) (h : OptionsMap.find host (cstr name) = none) :
    ∃ host', GenericOptionHolder.RegisterOption host name description initialValue = some host' ∧
      OptionsMap.find host' (cstr name) = some initialValue.toOption := by
  rw [RegisterOption_eq_registerOption]
  exact find_registerOption_self host name description _ h

theorem cstr_append_nul (s rest : List Nat) (hs : ∀ b ∈ s, b ≠ 0) :
    cstr (s ++ 0 :: rest) = s := by
  induction s with
  | nil => simp [cstr]
  | cons a t ih =>
    have ha : a ≠ 0 := hs a (List.mem_cons_self a t)
    have ht : ∀ b ∈ t, b ≠ 0 := fun b hb => hs b (List.mem_cons_of_mem a hb)
    have := ih ht
    simp only [cstr] at this ⊢
    have hne : (a != 0) = true := by simpa using ha
    rw [List.cons_append, List.takeWhile_cons, hne]
    simp [this]

theorem find_store_self (registry : OptionsMap) (key : List Nat) (old new : ClOption)
    (hfind : OptionsMap.find registry key = some old)
    (hty : (∃ a b, old = .optBool a ∧ new = .optBool b) ∨
      (∃ a b, old = .optUnsigned a ∧ new = .optUnsigned b) ∨
      (∃ a b, old = .optString a ∧ new = .optString b)) :
    OptionsMap.find (OptionsMap.store registry key new) key = some new := by
  induction registry with
  | nil => simp [OptionsMap.find] at hfind
  | cons e rest ih =>
    by_cases hk : e.first = key
    · simp only [OptionsMap.find, hk, if_true, Option.some.injEq] at hfind
      rcases hty with ⟨a, b, ha, hb⟩ | ⟨a, b, ha, hb⟩ | ⟨a, b, ha, hb⟩ <;>
        · subst ha hb
          simp [OptionsMap.store, hk, hfind, OptionsMap.find]
    · simp only [OptionsMap.find, hk, if_false] at hfind
      simp [OptionsMap.store, hk, OptionsMap.find, ih hfind]

/-- The unsigned accessor copies the cell of a registered `unsigned` option and
reports success. -/
theorem LLVMGetUnsignedOption_of_find (optionsMap : OptionsMap) (name : CharPtr) (n value : Nat)
    (h : OptionsMap.find optionsMap (cstr name) = some (.optUnsigned n)) :
    LLVMGetUnsignedOption optionsMap name value = (1, n) := by
  simp [LLVMGetUnsignedOption, h]

/-- The boolean accessor copies the cell of a registered `bool` option, as 0 or 1,
and returns `false`. -/
theorem LLVMGetBooleanOption_of_find (optionsMap : OptionsMap) (name : CharPtr) (b : Bool)
    (value : Int) (h : OptionsMap.find optionsMap (cstr name) = some (.optBool b)) :
    LLVMGetBooleanOption optionsMap name value = (0, if b then 1 else 0) := by
  simp [LLVMGetBooleanOption, h]

/-- The string accessor returns the buffer of a registered string option. -/
theorem LLVMGetStringOption_of_find (optionsMap : OptionsMap) (name : CharPtr) (s : List Nat)
    (h : OptionsMap.find optionsMap (cstr name) = some (.optString s)) :
    LLVMGetStringOption optionsMap name = some (s ++ [0]) := by
  simp [LLVMGetStringOption, c_str, h]

/-- Every return statement of the boolean accessor returns `false`. -/
theorem LLVMGetBooleanOption_returns_false (optionsMap : OptionsMap) (name : CharPtr)
    (value : Int) : (LLVMGetBooleanOption optionsMap name value).1 = 0 := by
  unfold LLVMGetBooleanOption
  cases OptionsMap.find optionsMap (cstr name) with
  | none => rfl
  | some o => cases o <;> rfl

/-- The unsigned accessor leaves the output location alone when it returns `false`. -/
theorem LLVMGetUnsignedOption_failure_keeps_output (optionsMap : OptionsMap) (name : CharPtr)
    (value : Nat) (h : (LLVMGetUnsignedOption optionsMap name value).1 = 0) :
    (LLVMGetUnsignedOption optionsMap name value).2 = value := by
  unfold LLVMGetUnsignedOption at h ⊢
  cases hf : OptionsMap.find optionsMap (cstr name) with
  | none => rfl
  | some o => cases o <;> simp_all

/-- C1 (the code departs from the claim): registering the boolean option "opt-a"
with initial value true in an empty registry and reading it with
`LLVMGetBooleanOption` writes 1 to the output location but returns 0, the
failure flag, where the claim asks for the success flag. -/
theorem C1_boolean_round_trip_returns_failure :
    (LLVMCreateCustomBooleanOption [] (lit "opt-a") (lit "desc") 1).map
      (fun registry => LLVMGetBooleanOption registry (lit "opt-a") 0) = some (0, 1) := by
  decide

/-- C2: for a name that is not registered and every unsigned value `v`,
`LLVMCreateCustomUnsignedOption` succeeds and `LLVMGetUnsignedOption` on the same
name then returns true (1) and leaves `v` in the output location. -/
theorem C2_unsigned_round_trip (registry : OptionsMap) (name description : CharPtr)
    (v out : Nat) (hfresh : OptionsMap.find registry (cstr name) = none) :
    ∃ registry', LLVMCreateCustomUnsignedOption registry name description v = some registry' ∧
      LLVMGetUnsignedOption registry' name out = (1, v) := by
  obtain ⟨r, hr, hfind⟩ :=
    find_RegisterOption_self registry name description (.ofUnsigned v) hfresh
  exact ⟨r, hr, LLVMGetUnsignedOption_of_find r name v out hfind⟩

theorem C2_unsigned_round_trip_witness :
    OptionsMap.find [] (cstr (lit "opt-n")) = none ∧
    ∃ registry', LLVMCreateCustomUnsignedOption [] (lit "opt-n") (lit "desc") 42 = some registry' ∧
      LLVMGetUnsignedOption registry' (lit "opt-n") 0 = (1, 42) :=
  ⟨by decide, C2_unsigned_round_trip [] (lit "opt-n") (lit "desc") 42 0 (by decide)⟩

/-- C3: for a name that is not registered, registering it with the registrar of
one of the tags Boolean, UnsignedInteger, String and reading it with the accessor
of another of these tags fails (flag 0 for the boolean and unsigned accessors,
null for the string accessor) and leaves the output location as it was. -/
theorem C3_type_isolation (registry : OptionsMap) (name description : CharPtr)
    (bv : Int) (uv : Nat) (sv : CharPtr) (b : Int) (n : Nat)
    (hfresh : OptionsMap.find registry (cstr name) = none) :
    (∃ r, LLVMCreateCustomBooleanOption registry name description bv = some r ∧
      LLVMGetUnsignedOption r name n = (0, n) ∧ LLVMGetStringOption r name = none) ∧
    (∃ r, LLVMCreateCustomUnsignedOption registry name description uv = some r ∧
      LLVMGetBooleanOption r name b = (0, b) ∧ LLVMGetStringOption r name = none) ∧
    (∃ r, LLVMCreateCustomStringOption registry name description sv = some r ∧
      LLVMGetBooleanOption r name b = (0, b) ∧ LLVMGetUnsignedOption r name n = (0, n)) := by
  refine ⟨?_, ?_, ?_⟩
  · obtain ⟨r, hr, hfind⟩ :=
      find_RegisterOption_self registry name description (.ofBool (bv != 0)) hfresh
    simp only [HolderValue.toOption] at hfind
    exact ⟨r, hr, by simp [LLVMGetUnsignedOption, hfind], by simp [LLVMGetStringOption, hfind]⟩
  · obtain ⟨r, hr, hfind⟩ :=
      find_RegisterOption_self registry name description (.ofUnsigned uv) hfresh
    simp only [HolderValue.toOption] at hfind
    exact ⟨r, hr, by simp [LLVMGetBooleanOption, hfind], by simp [LLVMGetStringOption, hfind]⟩
  · obtain ⟨r, hr, hfind⟩ :=
      find_RegisterOption_self registry name description (.ofString (cstr sv)) hfresh
    simp only [HolderValue.toOption] at hfind
    exact ⟨r, hr, by simp [LLVMGetBooleanOption, hfind], by simp [LLVMGetUnsignedOption, hfind]⟩

theorem C3_type_isolation_witness :
    OptionsMap.find [] (cstr (lit "opt-a")) = none ∧
    ((∃ r, LLVMCreateCustomBooleanOption [] (lit "opt-a") (lit "desc") 1 = some r ∧
      LLVMGetUnsignedOption r (lit "opt-a") 7 = (0, 7) ∧
      LLVMGetStringOption r (lit "opt-a") = none) ∧
    (∃ r, LLVMCreateCustomUnsignedOption [] (lit "opt-a") (lit "desc") 42 = some r ∧
      LLVMGetBooleanOption r (lit "opt-a") 5 = (0, 5) ∧
      LLVMGetStringOption r (lit "opt-a") = none) ∧
    (∃ r, LLVMCreateCustomStringOption [] (lit "opt-a") (lit "desc") (lit "hello") = some r ∧
      LLVMGetBooleanOption r (lit "opt-a") 5 = (0, 5) ∧
      LLVMGetUnsignedOption r (lit "opt-a") 7 = (0, 7))) :=
  ⟨by decide,
    C3_type_isolation [] (lit "opt-a") (lit "desc") 1 42 (lit "hello") 5 7 (by decide)⟩

/-- C4 (the code departs from the claim): `LLVMCreateCustomDoubleOption` on the
fresh name "opt-d" with initial value 3 installs a `cl::opt<unsigned>` entry, and
`LLVMGetUnsignedOption` on "opt-d" then returns true (1) and overwrites the
output location with 3, where the claim asks for failure and an untouched
output. -/
theorem C4_double_registrar_installs_unsigned :
    (LLVMCreateCustomDoubleOption [] (lit "opt-d") (lit "desc") 3).map
      (fun registry => (OptionsMap.find registry (cstr (lit "opt-d")),
        LLVMGetUnsignedOption registry (lit "opt-d") 0)) =
      some (some (.optUnsigned 3), (1, 3)) := by
  decide

/-- C5 (the code departs from the claim): it is not true that the boolean
accessor leaves the output location alone whenever it returns the failure flag;
on a registered boolean option holding true it returns 0 and changes an output
location holding 0 to 1. -/
theorem C5_boolean_failure_flag_with_write :
    ¬ ∀ (optionsMap : OptionsMap) (name : CharPtr) (value : Int),
      (LLVMGetBooleanOption optionsMap name value).1 = 0 →
        (LLVMGetBooleanOption optionsMap name value).2 = value := by
  intro h
  have := h [{ first := cstr (lit "opt-a"), second := .optBool true, description := lit "desc" }]
    (lit "opt-a") 0 (by decide)
  revert this
  decide

/-- C6: for every registry and every name without an entry in it,
`LLVMGetBooleanOption` and `LLVMGetUnsignedOption` return false (0) and leave the
output location as it was, and `LLVMGetStringOption` returns null. -/
theorem C6_missing_name (optionsMap : OptionsMap) (name : CharPtr) (b : Int) (n : Nat)
    (hmissing : OptionsMap.find optionsMap (cstr name) = none) :
    LLVMGetBooleanOption optionsMap name b = (0, b) ∧
    LLVMGetUnsignedOption optionsMap name n = (0, n) ∧
    LLVMGetStringOption optionsMap name = none := by
  simp [LLVMGetBooleanOption, LLVMGetUnsignedOption, LLVMGetStringOption, hmissing]

theorem C6_missing_name_witness :
    OptionsMap.find
      [{ first := cstr (lit "opt-a"), second := .optBool true, description := lit "desc" }]
      (cstr (lit "opt-x")) = none ∧
    (LLVMGetBooleanOption
      [{ first := cstr (lit "opt-a"), second := .optBool true, description := lit "desc" }]
      (lit "opt-x") 5 = (0, 5) ∧
    LLVMGetUnsignedOption
      [{ first := cstr (lit "opt-a"), second := .optBool true, description := lit "desc" }]
      (lit "opt-x") 7 = (0, 7) ∧
    LLVMGetStringOption
      [{ first := cstr (lit "opt-a"), second := .optBool true, description := lit "desc" }]
      (lit "opt-x") = none) :=
  ⟨by decide,
    C6_missing_name
      [{ first := cstr (lit "opt-a"), second := .optBool true, description := lit "desc" }]
      (lit "opt-x") 5 7 (by decide)⟩

/-- C7: for a name that is not registered and every nul-terminated byte string
(the bytes `s`, none of them nul, followed by a nul, whatever lies behind it in
memory), `LLVMCreateCustomStringOption` succeeds and `LLVMGetStringOption` on the
same name then returns a non-null pointer to the bytes `s` followed by a nul. -/
theorem C7_string_round_trip (registry : OptionsMap) (name description : CharPtr)
    (s rest : List Nat) (hfresh : OptionsMap.find registry (cstr name) = none)
    (hs : ∀ b ∈ s, b ≠ 0) :
    ∃ registry', LLVMCreateCustomStringOption registry name description (s ++ 0 :: rest) =
        some registry' ∧
      LLVMGetStringOption registry' name = some (s ++ [0]) := by
  obtain ⟨r, hr, hfind⟩ := find_RegisterOption_self registry name description
    (.ofString (cstr (s ++ 0 :: rest))) hfresh
  simp only [HolderValue.toOption] at hfind
  rw [cstr_append_nul s rest hs] at hfind
  exact ⟨r, hr, LLVMGetStringOption_of_find r name s hfind⟩

theorem C7_string_round_trip_witness :
    OptionsMap.find [] (cstr (lit "opt-s")) = none ∧
    (∀ b ∈ [104, 101, 108, 108, 111], b ≠ 0) ∧
    ∃ registry', LLVMCreateCustomStringOption [] (lit "opt-s") (lit "desc")
        ([104, 101, 108, 108, 111] ++ 0 :: [33]) = some registry' ∧
      LLVMGetStringOption registry' (lit "opt-s") = some ([104, 101, 108, 108, 111] ++ [0]) :=
  ⟨by decide, by decide,
    C7_string_round_trip [] (lit "opt-s") (lit "desc") [104, 101, 108, 108, 111] [33]
      (by decide) (by decide)⟩

/-- C8: the accessors read the current value of the cell. For every registered
unsigned option the unsigned accessor writes the value the cell holds at the time
of the call, and after the Host has stored a new value `w` in the cell a second
call writes `w` to the output location; for every registered boolean option the
boolean accessor does the same, writing the value as 0 or 1. Each half holds on
its own, whatever else the registry holds. -/
theorem C8_accessors_read_current_value (registry : OptionsMap) (name : CharPtr)
    (v w outU outU2 : Nat) (bv bw : Bool) (outB outB2 : Int) :
    (OptionsMap.find registry (cstr name) = some (.optUnsigned v) →
      LLVMGetUnsignedOption registry name outU = (1, v) ∧
      LLVMGetUnsignedOption (OptionsMap.store registry (cstr name) (.optUnsigned w)) name outU2 =
        (1, w)) ∧
    (OptionsMap.find registry (cstr name) = some (.optBool bv) →
      (LLVMGetBooleanOption registry name outB).2 = (if bv then 1 else 0) ∧
      (LLVMGetBooleanOption (OptionsMap.store registry (cstr name) (.optBool bw)) name outB2).2 =
        (if bw then 1 else 0)) := by
  constructor
  · intro hu
    have hu' := find_store_self registry (cstr name) (.optUnsigned v) (.optUnsigned w) hu
      (Or.inr (Or.inl ⟨v, w, rfl, rfl⟩))
    exact ⟨LLVMGetUnsignedOption_of_find _ _ _ _ hu, LLVMGetUnsignedOption_of_find _ _ _ _ hu'⟩
  · intro hb
    have hb' := find_store_self registry (cstr name) (.optBool bv) (.optBool bw) hb
      (Or.inl ⟨bv, bw, rfl, rfl⟩)
    constructor
    · rw [LLVMGetBooleanOption_of_find _ _ _ _ hb]
    · rw [LLVMGetBooleanOption_of_find _ _ _ _ hb']

theorem C8_accessors_read_current_value_witness :
    (OptionsMap.find
        [{ first := cstr (lit "opt-n"), second := .optUnsigned 42, description := lit "desc" }]
        (cstr (lit "opt-n")) = some (.optUnsigned 42) ∧
      LLVMGetUnsignedOption
        [{ first := cstr (lit "opt-n"), second := .optUnsigned 42, description := lit "desc" }]
        (lit "opt-n") 0 = (1, 42) ∧
      LLVMGetUnsignedOption (OptionsMap.store
        [{ first := cstr (lit "opt-n"), second := .optUnsigned 42, description := lit "desc" }]
        (cstr (lit "opt-n")) (.optUnsigned 7)) (lit "opt-n") 42 = (1, 7)) ∧
    (OptionsMap.find
        [{ first := cstr (lit "opt-a"), second := .optBool false, description := lit "desc" }]
        (cstr (lit "opt-a")) = some (.optBool false) ∧
      (LLVMGetBooleanOption
        [{ first := cstr (lit "opt-a"), second := .optBool false, description := lit "desc" }]
        (lit "opt-a") 9).2 = (if false then 1 else 0) ∧
      (LLVMGetBooleanOption (OptionsMap.store
        [{ first := cstr (lit "opt-a"), second := .optBool false, description := lit "desc" }]
        (cstr (lit "opt-a")) (.optBool true)) (lit "opt-a") 0).2 = (if true then 1 else 0)) :=
  ⟨⟨by decide,
      (C8_accessors_read_current_value
        [{ first := cstr (lit "opt-n"), second := .optUnsigned 42, description := lit "desc" }]
        (lit "opt-n") 42 7 0 42 false true 9 0).1 (by decide)⟩,
    ⟨by decide,
      (C8_accessors_read_current_value
        [{ first := cstr (lit "opt-a"), second := .optBool false, description := lit "desc" }]
        (lit "opt-a") 42 7 0 42 false true 9 0).2 (by decide)⟩⟩

/-- C10: for every integer passed as the `LLVMBool` initial value of
`LLVMCreateCustomBooleanOption` on a name that is not registered, the installed
cell holds true exactly when the integer is not 0, and `LLVMGetBooleanOption`
then writes 1 when the integer is not 0 and 0 when it is 0; the written value
equals the integer only when the integer is 0 or 1. -/
theorem C10_boolean_normalisation (registry : OptionsMap) (name description : CharPtr)
    (initialValue out : Int) (hfresh : OptionsMap.find registry (cstr name) = none) :
    ∃ registry', LLVMCreateCustomBooleanOption registry name description initialValue =
        some registry' ∧
      (∃ cell, OptionsMap.find registry' (cstr name) = some (.optBool cell) ∧
        (cell = true ↔ initialValue ≠ 0)) ∧
      (LLVMGetBooleanOption registry' name out).2 = (if initialValue = 0 then 0 else 1) ∧
      ((LLVMGetBooleanOption registry' name out).2 = initialValue ↔
        (initialValue = 0 ∨ initialValue = 1)) := by
  obtain ⟨r, hr, hfind⟩ :=
    find_RegisterOption_self registry name description (.ofBool (initialValue != 0)) hfresh
  simp only [HolderValue.toOption] at hfind
  refine ⟨r, hr, ⟨initialValue != 0, hfind, by simp⟩, ?_, ?_⟩
  · rw [LLVMGetBooleanOption_of_find r name _ out hfind]
    by_cases h0 : initialValue = 0 <;> simp [h0]
  · rw [LLVMGetBooleanOption_of_find r name _ out hfind]
    by_cases h0 : initialValue = 0
    · simp [h0]
    · by_cases h1 : initialValue = 1
      · simp [h1]
      · simp [h0, h1]
        exact fun h => h1 h.symm

theorem C10_boolean_normalisation_witness :
    OptionsMap.find [] (cstr (lit "opt-a")) = none ∧
    ∃ registry', LLVMCreateCustomBooleanOption [] (lit "opt-a") (lit "desc") (-5) =
        some registry' ∧
      (∃ cell, OptionsMap.find registry' (cstr (lit "opt-a")) = some (.optBool cell) ∧
        (cell = true ↔ (-5 : Int) ≠ 0)) ∧
      (LLVMGetBooleanOption registry' (lit "opt-a") 0).2 = (if (-5 : Int) = 0 then 0 else 1) ∧
      ((LLVMGetBooleanOption registry' (lit "opt-a") 0).2 = -5 ↔
        ((-5 : Int) = 0 ∨ (-5 : Int) = 1)) :=
  ⟨by decide, C10_boolean_normalisation [] (lit "opt-a") (lit "desc") (-5) 0 (by decide)⟩

end LibLLVM
